import Mathlib

/-!
Verification development for the file-reading core of `dbt` :
`core/dbt/parser/read_files.py`.

The Python source is shallowly embedded below.  External collaborators that
the source imports from other modules (`load_file_contents`, `yaml_from_file`,
`check_format_version`, `schema_file_keys`, `filesystem_search`) are passed as
explicit arguments, and the data contracts (`FilePath`, `FileHash`,
`SourceFile`) that live in `dbt.contracts.files` are modelled from the spec.
The content digest is modelled as an injective function of the byte string.
-/

set_option autoImplicit false

namespace ReadFiles

/-- Content checksum record, modelled from the spec: a deterministic digest
over raw file bytes carrying the hash algorithm name, with a distinguished
"empty" value meaning "not yet computed". -/
structure FileHash where
  name : String
  checksum : String
deriving DecidableEq, Repr

/-- Modelled from the spec: the distinguished empty/sentinel checksum
(`FileHash.empty` in `dbt.contracts.files`, outside the source sample). -/
def FileHash.empty : FileHash :=
  { name := "none", checksum := "" }

/-- Digest over a byte string.  The real code uses a cryptographic hash; it is
modelled as an injective (collision-free) function of the content bytes. -/
def hashDigest (s : String) : String := s

/-- Modelled from the spec: checksum computed from file contents
(`FileHash.from_contents` in `dbt.contracts.files`). -/
def FileHash.from_contents (s : String) : FileHash :=
  { name := "sha256", checksum := hashDigest s }

/-- Modelled from the spec: the fixed size threshold for the seed-size
heuristic (`MAXIMUM_SEED_SIZE` in `dbt.contracts.files`). -/
def MAXIMUM_SEED_SIZE : Nat := 1048576

/-- File location record, modelled from the spec: absolute path derived from
the owning project root, project-relative path, searched root directory,
modification timestamp (0 is the "unknown" sentinel) and byte size. -/
structure FilePath where
  searched_path : String
  relative_path : String
  modification_time : Rat
  project_root : String
  size : Nat
deriving DecidableEq, Repr

/-- Path concatenation, modelling `os.path.join` for the non-degenerate case
used by the source (joining non-empty relative components). -/
def pathJoin (a b : String) : String := a ++ "/" ++ b

/-- Human-facing path of the file: searched path joined with the relative
path (`FilePath.original_file_path` in `dbt.contracts.files`). -/
def FilePath.original_file_path (p : FilePath) : String :=
  pathJoin p.searched_path p.relative_path

/-- Absolute path: project root joined with the original file path
(`FilePath.absolute_path` in `dbt.contracts.files`). -/
def FilePath.absolute_path (p : FilePath) : String :=
  pathJoin p.project_root p.original_file_path

/-- Modelled from the spec: the seed-size heuristic compares the seed file's
byte size against the fixed threshold; only a size strictly over the
threshold counts as big (`FilePath.seed_too_large`). -/
def FilePath.seed_too_large (p : FilePath) : Bool :=
  MAXIMUM_SEED_SIZE < p.size

/-- Closed tag set of parse types, from `ParseFileType` in
`dbt.contracts.files` as enumerated by `get_file_types_for_project`. -/
inductive ParseFileType where
  | Macro
  | Model
  | Snapshot
  | Analysis
  | SingularTest
  | GenericTest
  | Seed
  | Documentation
  | Schema
deriving DecidableEq, Repr

/-- Structural YAML values, the target of the external YAML parser. -/
inductive YamlValue where
  | null : YamlValue
  | bool : Bool → YamlValue
  | str : String → YamlValue
  | int : Int → YamlValue
  | list : List YamlValue → YamlValue
  | dict : List (String × YamlValue) → YamlValue

/-- Top-level parsed schema data: a mapping from keys to YAML values
(`yaml_from_file` yields a mapping for schema files). -/
abbrev YamlMap := List (String × YamlValue)

/-- Lookup of a key in a YAML mapping, modelling Python dict indexing. -/
def yamlLookup (kvs : YamlMap) (k : String) : Option YamlValue :=
  match kvs.find? (fun kv => kv.1 == k) with
  | some kv => some kv.2
  | none => none

/-- Leading and trailing whitespace removal, modelling Python `str.strip`
as used through `load_file_contents` and the content normalization. -/
def pyStrip (s : String) : String :=
  String.mk (((s.data.dropWhile Char.isWhitespace).reverse.dropWhile
    Char.isWhitespace).reverse)

/-- Splitting a character list at a separator. -/
def splitOnChar (sep : Char) : List Char → List (List Char)
  | [] => [[]]
  | c :: cs =>
    match splitOnChar sep cs with
    | [] => [[]]
    | p :: ps => if c = sep then [] :: p :: ps else (c :: p) :: ps

/-- File record, flattening `SourceFile` and `SchemaSourceFile` from
`dbt.contracts.files` (modelled from the spec): the `dfy` parsed-schema field
is only ever set on schema records. -/
structure SourceFile where
  path : FilePath
  checksum : FileHash
  parse_file_type : Option ParseFileType := none
  project_name : Option String := none
  contents : String := ""
  dfy : Option YamlMap := none

/-- Stable file identity: project name and original file path, as produced by
the `file_id` property of `dbt.contracts.files` (modelled from the spec). -/
def SourceFile.file_id (sf : SourceFile) : String :=
  match sf.project_name with
  | some pn => pn ++ "://" ++ sf.path.original_file_path
  | none => "None://" ++ sf.path.original_file_path

/-- Modelled from the spec: a big-seed record (`SourceFile.big_seed` in
`dbt.contracts.files`, outside the source sample) carries only the file
location, with the checksum left at the empty/sentinel value and no content
stored. -/
def SourceFile.big_seed (p : FilePath) : SourceFile :=
  { path := p, checksum := FileHash.empty, contents := "" }

/-- The record as first constructed by `load_source_file` (lines 47-53):
location, empty checksum, parse type and project name. -/
def initialSourceFile (path : FilePath) (pft : ParseFileType) (pn : String) : SourceFile :=
  { path := path
    checksum := FileHash.empty
    parse_file_type := some pft
    project_name := some pn }

/-- Lookup in the previous-run snapshot (Python `saved_files[file_id]`). -/
def savedLookup (saved_files : List (String × SourceFile)) (fid : String) :
    Option SourceFile :=
  match saved_files.find? (fun kv => kv.1 == fid) with
  | some kv => some kv.2
  | none => none

/-- The schema cache-reuse decision of `load_source_file` (lines 55-68): the
prior record is returned exactly when the parse type is Schema, the snapshot
is non-empty and contains the file identity, the newly observed modification
time is non-zero, and it equals the prior record's modification time. -/
def reuseRecord (path : FilePath) (pft : ParseFileType)
    (saved_files : List (String × SourceFile)) (fid : String) : Option SourceFile :=
  if pft = ParseFileType.Schema ∧ saved_files.isEmpty = false then
    match savedLookup saved_files fid with
    | some old =>
      if path.modification_time ≠ 0 ∧
          old.path.modification_time = path.modification_time then
        some old
      else none
    | none => none
  else none

/-- Message raised when a recognized key's value is not a list
(`validate_yaml`, lines 93-96). -/
def notListMsg (file_path key : String) : String :=
  "The schema file at " ++ file_path ++
    " is invalid because the value of \x27" ++ key ++ "\x27 is not a list"

/-- Message raised when a list element is not a dictionary
(`validate_yaml`, lines 100-103). -/
def notDictMsg (file_path key : String) : String :=
  "The schema file at " ++ file_path ++
    " is invalid because a list element for \x27" ++ key ++
    "\x27 is not a dictionary"

/-- Message raised when a list element has no name key
(`validate_yaml`, lines 106-110). -/
def missingNameMsg (file_path key : String) : String :=
  "The schema file at " ++ file_path ++
    " is invalid because a list element for \x27" ++ key ++
    "\x27 does not have a name attribute."

/-- Inner loop of `validate_yaml` (lines 98-111): each element of a
recognized key's list must be a dictionary containing a name key; the first
violation raises. -/
def validateElements (file_path key : String) : List YamlValue → Except String Unit
  | [] => Except.ok ()
  | el :: rest =>
    match el with
    | YamlValue.dict kvs =>
      if (kvs.find? (fun kv => kv.1 == "name")).isSome then
        validateElements file_path key rest
      else Except.error (missingNameMsg file_path key)
    | _ => Except.error (notDictMsg file_path key)

/-- Outer loop of `validate_yaml` (lines 90-111): every recognized top-level
key present in the mapping must hold a list of dictionaries each carrying a
name key. -/
def validateKeys (file_path : String) (dct : YamlMap) : List String → Except String Unit
  | [] => Except.ok ()
  | key :: rest =>
    match yamlLookup dct key with
    | none => validateKeys file_path dct rest
    | some (YamlValue.list elements) =>
      match validateElements file_path key elements with
      | Except.ok _ => validateKeys file_path dct rest
      | Except.error e => Except.error e
    | some _ => Except.error (notListMsg file_path key)

/-- Embedding of `validate_yaml` (lines 88-111).  `check_version` stands for
the external `check_format_version` and `schema_file_keys` for the external
key list, both imported from `dbt.parser.schemas` (outside the source
sample). -/
def validate_yaml (check_version : String → YamlMap → Except String Unit)
    (schema_file_keys : List String) (file_path : String) (dct : YamlMap) :
    Except String Unit :=
  match check_version file_path dct with
  | Except.ok _ => validateKeys file_path dct schema_file_keys
  | Except.error e => Except.error e

/-- Embedding of `load_source_file` (lines 40-82).  `fs` models the
filesystem as read by the external `load_file_contents` (absolute path to
raw byte content), `yamlOf` the external `yaml_from_file` (with `none` for a
parse yielding no document), `check_version` and `schema_file_keys` as in
`validate_yaml`.  A YAML parse that raises in the source is outside the
model: `yamlOf` yields a mapping or no document. -/
def load_source_file (fs : String → String) (yamlOf : String → Option YamlMap)
    (check_version : String → YamlMap → Except String Unit)
    (schema_file_keys : List String) (path : FilePath) (pft : ParseFileType)
    (pn : String) (saved_files : List (String × SourceFile)) :
    Except String (Option SourceFile) :=
  match reuseRecord path pft saved_files ((initialSourceFile path pft pn).file_id) with
  | some old =>
    Except.ok (some { initialSourceFile path pft pn with
      checksum := old.checksum, dfy := old.dfy })
  | none =>
    let file_contents := fs path.absolute_path
    let sf : SourceFile := { initialSourceFile path pft pn with
      checksum := FileHash.from_contents file_contents
      contents := pyStrip file_contents }
    if pft = ParseFileType.Schema ∧ sf.contents ≠ "" then
      match yamlOf sf.contents with
      | some dfy =>
        if dfy.isEmpty then Except.ok none
        else
          match validate_yaml check_version schema_file_keys
              path.original_file_path dfy with
          | Except.ok _ => Except.ok (some { sf with dfy := some dfy })
          | Except.error e => Except.error e
      | none => Except.ok none
    else Except.ok (some sf)

/-- Embedding of `load_seed_source_file` (lines 115-126). -/
def load_seed_source_file (fs : String → String) (fp : FilePath) (pn : String) :
    SourceFile :=
  let source_file :=
    if fp.seed_too_large then
      SourceFile.big_seed fp
    else
      let file_contents := fs fp.absolute_path
      let checksum := FileHash.from_contents file_contents
      { path := fp, checksum := checksum, contents := "" }
  { source_file with
    parse_file_type := some ParseFileType.Seed
    project_name := some pn }

/-- First component of a relative path, modelling
`pathlib.Path(relative_path).parts[0]` (empty and dot components are not
path parts). -/
def firstPathPart (s : String) : String :=
  (((splitOnChar (Char.ofNat 47) s.data).map (fun l => String.mk l)).filter
    (fun p => !(p == "") && !(p == "."))).headD ""

/-- Embedding of `get_source_files` (lines 131-150), applied to the location
list produced by the external `filesystem_search`. -/
def get_source_files (fs : String → String) (yamlOf : String → Option YamlMap)
    (check_version : String → YamlMap → Except String Unit)
    (schema_file_keys : List String) (pn : String) (fp_list : List FilePath)
    (pft : ParseFileType) (saved_files : List (String × SourceFile)) :
    Except String (List SourceFile) :=
  match fp_list with
  | [] => Except.ok []
  | fp :: rest =>
    if pft = ParseFileType.Seed then
      match get_source_files fs yamlOf check_version schema_file_keys pn rest
          pft saved_files with
      | Except.ok tail => Except.ok (load_seed_source_file fs fp pn :: tail)
      | Except.error e => Except.error e
    else
      if pft = ParseFileType.SingularTest ∧ firstPathPart fp.relative_path = "generic" then
        get_source_files fs yamlOf check_version schema_file_keys pn rest
          pft saved_files
      else
        match load_source_file fs yamlOf check_version schema_file_keys fp
            pft pn saved_files with
        | Except.error e => Except.error e
        | Except.ok none =>
          get_source_files fs yamlOf check_version schema_file_keys pn rest
            pft saved_files
        | Except.ok (some file) =>
          match get_source_files fs yamlOf check_version schema_file_keys pn
              rest pft saved_files with
          | Except.ok tail => Except.ok (file :: tail)
          | Except.error e => Except.error e

/-- Registry insertion with Python dict-assignment semantics: overwrite an
existing key, otherwise append. -/
def registryInsert (files : List (String × SourceFile)) (k : String)
    (v : SourceFile) : List (String × SourceFile) :=
  if files.any (fun kv => kv.1 == k) then
    files.map (fun kv => if kv.1 == k then (k, v) else kv)
  else files ++ [(k, v)]

/-- Embedding of the per-parse-type read loop (source lines 153-163): for each extension
run the search (the external `filesystem_search`, modelled as the `search`
oracle), insert every produced record into the registry and collect the file
identities in discovery order. -/
def read_files_for_pt (fs : String → String) (yamlOf : String → Option YamlMap)
    (check_version : String → YamlMap → Except String Unit)
    (schema_file_keys : List String) (pn : String)
    (search : String → List FilePath) (pft : ParseFileType)
    (saved_files : List (String × SourceFile))
    (files : List (String × SourceFile)) :
    List String → Except String (List (String × SourceFile) × List String)
  | [] => Except.ok (files, [])
  | ext :: rest =>
    match get_source_files fs yamlOf check_version schema_file_keys pn
        (search ext) pft saved_files with
    | Except.error e => Except.error e
    | Except.ok source_files =>
      match read_files_for_pt fs yamlOf check_version schema_file_keys pn
          search pft saved_files
          (source_files.foldl (fun acc sf => registryInsert acc sf.file_id sf) files)
          rest with
      | Except.error e => Except.error e
      | Except.ok (files2, ids) =>
        Except.ok (files2, source_files.map (fun sf => sf.file_id) ++ ids)

/-- Spec-side predicate: a single list element violates the minimal schema
validation, by not being a dictionary or by lacking a name key. -/
def elementViolation : YamlValue → Bool
  | YamlValue.dict kvs => (kvs.find? (fun kv => kv.1 == "name")).isNone
  | _ => true

/-- Spec-side predicate: a recognized top-level key violates the minimal
schema validation. -/
def keyViolation (dct : YamlMap) (key : String) : Bool :=
  match yamlLookup dct key with
  | none => false
  | some (YamlValue.list elements) => elements.any elementViolation
  | some _ => true

/-- Spec-side predicate: some recognized key of the mapping violates the
minimal schema validation. -/
def hasViolation (schema_file_keys : List String) (dct : YamlMap) : Bool :=
  schema_file_keys.any (keyViolation dct)

/-- A YAML parse outcome that Python treats as falsy: no document, or an
empty mapping. -/
def yamlFalsy (yamlOf : String → Option YamlMap) (s : String) : Bool :=
  match yamlOf s with
  | none => true
  | some m => m.isEmpty

/-- Concrete schema file location used in witnesses. -/
def cSchemaPath : FilePath :=
  { searched_path := "models"
    relative_path := "schema.yml"
    modification_time := 5
    project_root := "/proj"
    size := 64 }

/-- Concrete model file location used in witnesses. -/
def cModelPath : FilePath :=
  { searched_path := "models"
    relative_path := "my_model.sql"
    modification_time := 3
    project_root := "/proj"
    size := 16 }

/-- Concrete prior-run schema record used in witnesses: same modification
time as `cSchemaPath`, with parsed data attached. -/
def cOldRecord : SourceFile :=
  { path := cSchemaPath
    checksum := FileHash.from_contents "version: 2"
    parse_file_type := some ParseFileType.Schema
    project_name := some "p"
    contents := ""
    dfy := some [("models", YamlValue.list [YamlValue.dict [("name", YamlValue.str "a")]])] }

/-- Concrete previous-run snapshot containing `cOldRecord`. -/
def cSaved : List (String × SourceFile) :=
  [("p://models/schema.yml", cOldRecord)]

/-- The record produced by reusing `cOldRecord` for `cSchemaPath`. -/
def cReusedRec : SourceFile :=
  { path := cSchemaPath
    checksum := cOldRecord.checksum
    parse_file_type := some ParseFileType.Schema
    project_name := some "p"
    contents := ""
    dfy := cOldRecord.dfy }

/-- The record produced by freshly loading a whitespace-only schema file at
`cSchemaPath`. -/
def cEmptySchemaRec : SourceFile :=
  { path := cSchemaPath
    checksum := FileHash.from_contents " \n"
    parse_file_type := some ParseFileType.Schema
    project_name := some "p"
    contents := ""
    dfy := none }

/-- Concrete seed file location exactly at the size threshold. -/
def cSmallSeedPath : FilePath :=
  { searched_path := "seeds"
    relative_path := "seed.csv"
    modification_time := 1
    project_root := "/proj"
    size := 1048576 }

/-- Concrete seed file location one byte over the size threshold. -/
def cBigSeedPath : FilePath :=
  { searched_path := "seeds"
    relative_path := "big_seed.csv"
    modification_time := 1
    project_root := "/proj"
    size := 1048577 }

/-- Concrete test file location under the reserved generic-test directory. -/
def cGenericTestPath : FilePath :=
  { searched_path := "tests"
    relative_path := "generic/my_generic.sql"
    modification_time := 1
    project_root := "/proj"
    size := 10 }

/-- Concrete test file location outside the generic-test directory. -/
def cSingularTestPath : FilePath :=
  { searched_path := "tests"
    relative_path := "my_test.sql"
    modification_time := 1
    project_root := "/proj"
    size := 10 }

/-- Representative list standing for the recognized schema file keys. -/
def cKeys : List String := ["models", "seeds", "snapshots", "sources"]

/-- Concrete well-formed parsed schema mapping. -/
def cGoodYaml : YamlMap :=
  [("version", YamlValue.int 2),
   ("models", YamlValue.list [YamlValue.dict [("name", YamlValue.str "a")]])]

/-- Concrete parsed schema mapping whose recognized key holds a mapping
instead of a list. -/
def cBadYaml : YamlMap :=
  [("version", YamlValue.int 2),
   ("models", YamlValue.dict [("name", YamlValue.str "a")])]

/-- Version check that always accepts, used to instantiate witnesses. -/
def cCheckOk : String → YamlMap → Except String Unit := fun _ _ => Except.ok ()

/-- The record produced by freshly loading a model file with content
`select 1` at `cModelPath`. -/
def cModelRec : SourceFile :=
  { path := cModelPath
    checksum := FileHash.from_contents "select 1"
    parse_file_type := some ParseFileType.Model
    project_name := some "p"
    contents := "select 1"
    dfy := none }

/-- The record produced by freshly loading a singular test file with content
`select 1` at `cSingularTestPath`. -/
def cSingularRec : SourceFile :=
  { path := cSingularTestPath
    checksum := FileHash.from_contents "select 1"
    parse_file_type := some ParseFileType.SingularTest
    project_name := some "p"
    contents := "select 1"
    dfy := none }

theorem from_contents_ne_empty (s : String) :
    FileHash.from_contents s ≠ FileHash.empty := by
  intro h
  have h2 : "sha256" = "none" := congrArg FileHash.name h
  exact absurd h2 (by decide)

theorem from_contents_inj {s t : String}
    (h : FileHash.from_contents s = FileHash.from_contents t) : s = t :=
  congrArg FileHash.checksum h

theorem reuseRecord_none_of_ne_schema (path : FilePath) (pft : ParseFileType)
    (saved : List (String × SourceFile)) (fid : String)
    (h : pft ≠ ParseFileType.Schema) : reuseRecord path pft saved fid = none := by
  simp [reuseRecord, h]

theorem savedLookup_mem {saved : List (String × SourceFile)} {fid : String}
    {old : SourceFile} (h : savedLookup saved fid = some old) :
    ∃ k, (k, old) ∈ saved := by
  unfold savedLookup at h
  cases hf : saved.find? (fun kv => kv.1 == fid) with
  | none => rw [hf] at h; exact absurd h (by simp)
  | some kv =>
    rw [hf] at h
    have hmem := List.mem_of_find?_eq_some hf
    have : kv.2 = old := by injection h
    exact ⟨kv.1, by rw [← this]; exact hmem⟩

theorem reuseRecord_some_iff (path : FilePath)
    (saved : List (String × SourceFile)) (fid : String) (old : SourceFile) :
    reuseRecord path ParseFileType.Schema saved fid = some old ↔
      (savedLookup saved fid = some old ∧ path.modification_time ≠ 0 ∧
        old.path.modification_time = path.modification_time) := by
  constructor
  · intro h
    unfold reuseRecord at h
    split at h
    · split at h
      · rename_i o heq
        split at h
        · rename_i hm
          have ho : o = old := by injection h
          subst ho
          exact ⟨heq, hm⟩
        · exact absurd h (by simp)
      · exact absurd h (by simp)
    · exact absurd h (by simp)
  · intro ⟨hl, hm1, hm2⟩
    have hne : saved.isEmpty = false := by
      cases saved with
      | nil => simp [savedLookup] at hl
      | cons a l => rfl
    unfold reuseRecord
    rw [if_pos ⟨rfl, hne⟩, hl]
    exact if_pos ⟨hm1, hm2⟩

theorem load_source_file_reuse (fs : String → String)
    (yamlOf : String → Option YamlMap)
    (cv : String → YamlMap → Except String Unit) (keys : List String)
    (path : FilePath) (pft : ParseFileType) (pn : String)
    (saved : List (String × SourceFile)) (old : SourceFile)
    (h : reuseRecord path pft saved ((initialSourceFile path pft pn).file_id) = some old) :
    load_source_file fs yamlOf cv keys path pft pn saved =
      Except.ok (some { initialSourceFile path pft pn with
        checksum := old.checksum, dfy := old.dfy }) := by
  unfold load_source_file
  rw [h]

theorem load_source_file_fresh_fields (fs : String → String)
    (yamlOf : String → Option YamlMap)
    (cv : String → YamlMap → Except String Unit) (keys : List String)
    (path : FilePath) (pft : ParseFileType) (pn : String)
    (saved : List (String × SourceFile))
    (h : reuseRecord path pft saved ((initialSourceFile path pft pn).file_id) = none)
    (f : SourceFile)
    (hf : load_source_file fs yamlOf cv keys path pft pn saved = Except.ok (some f)) :
    f.path = path ∧ f.parse_file_type = some pft ∧ f.project_name = some pn ∧
      f.checksum = FileHash.from_contents (fs path.absolute_path) ∧
      f.contents = pyStrip (fs path.absolute_path) := by
  have hf2 : (if pft = ParseFileType.Schema ∧ ¬pyStrip (fs path.absolute_path) = "" then
      match yamlOf (pyStrip (fs path.absolute_path)) with
      | some dfy =>
        if dfy.isEmpty then Except.ok none
        else
          match validate_yaml cv keys path.original_file_path dfy with
          | Except.ok _ =>
            Except.ok (some { initialSourceFile path pft pn with
              checksum := FileHash.from_contents (fs path.absolute_path)
              contents := pyStrip (fs path.absolute_path)
              dfy := some dfy })
          | Except.error e => Except.error e
      | none => Except.ok none
    else
      Except.ok (some { initialSourceFile path pft pn with
        checksum := FileHash.from_contents (fs path.absolute_path)
        contents := pyStrip (fs path.absolute_path) })) = Except.ok (some f) := by
    rw [← hf]
    unfold load_source_file
    rw [h]
  clear hf
  by_cases hcond : (pft = ParseFileType.Schema ∧ ¬pyStrip (fs path.absolute_path) = "")
  · rw [if_pos hcond] at hf2
    split at hf2
    · rename_i dfy hy
      split at hf2
      · exact absurd hf2 (by simp)
      · split at hf2
        · have : { initialSourceFile path pft pn with
              checksum := FileHash.from_contents (fs path.absolute_path)
              contents := pyStrip (fs path.absolute_path)
              dfy := some dfy } = f := by
            injection hf2 with h1
            injection h1
          subst this
          exact ⟨rfl, rfl, rfl, rfl, rfl⟩
        · exact absurd hf2 (by simp)
    · exact absurd hf2 (by simp)
  · rw [if_neg hcond] at hf2
    have : { initialSourceFile path pft pn with
        checksum := FileHash.from_contents (fs path.absolute_path)
        contents := pyStrip (fs path.absolute_path) } = f := by
      injection hf2 with h1
      injection h1
    subst this
    exact ⟨rfl, rfl, rfl, rfl, rfl⟩

theorem load_source_file_fresh_eq (fs : String → String)
    (yamlOf : String → Option YamlMap)
    (cv : String → YamlMap → Except String Unit) (keys : List String)
    (path : FilePath) (pft : ParseFileType) (pn : String)
    (saved : List (String × SourceFile))
    (h : reuseRecord path pft saved ((initialSourceFile path pft pn).file_id) = none) :
    load_source_file fs yamlOf cv keys path pft pn saved =
      (if pft = ParseFileType.Schema ∧ ¬pyStrip (fs path.absolute_path) = "" then
        match yamlOf (pyStrip (fs path.absolute_path)) with
        | some dfy =>
          if dfy.isEmpty then Except.ok none
          else
            match validate_yaml cv keys path.original_file_path dfy with
            | Except.ok _ => Except.ok (some { initialSourceFile path pft pn with
                checksum := FileHash.from_contents (fs path.absolute_path)
                contents := pyStrip (fs path.absolute_path)
                dfy := some dfy })
            | Except.error e => Except.error e
        | none => Except.ok none
      else Except.ok (some { initialSourceFile path pft pn with
        checksum := FileHash.from_contents (fs path.absolute_path)
        contents := pyStrip (fs path.absolute_path) })) := by
  unfold load_source_file
  rw [h]

theorem load_source_file_non_schema (fs : String → String)
    (yamlOf : String → Option YamlMap)
    (cv : String → YamlMap → Except String Unit) (keys : List String)
    (path : FilePath) (pft : ParseFileType) (pn : String)
    (saved : List (String × SourceFile)) (h : pft ≠ ParseFileType.Schema) :
    load_source_file fs yamlOf cv keys path pft pn saved =
      Except.ok (some
        { path := path,
          checksum := FileHash.from_contents (fs path.absolute_path),
          parse_file_type := some pft,
          project_name := some pn,
          contents := pyStrip (fs path.absolute_path),
          dfy := none }) := by
  rw [load_source_file_fresh_eq fs yamlOf cv keys path pft pn saved
    (reuseRecord_none_of_ne_schema _ _ _ _ h)]
  rw [if_neg (fun hc => h hc.1)]
  rfl

theorem load_source_file_empty_trim (fs : String → String)
    (yamlOf : String → Option YamlMap)
    (cv : String → YamlMap → Except String Unit) (keys : List String)
    (path : FilePath) (pft : ParseFileType) (pn : String)
    (saved : List (String × SourceFile))
    (h : reuseRecord path pft saved ((initialSourceFile path pft pn).file_id) = none)
    (htrim : pyStrip (fs path.absolute_path) = "") :
    load_source_file fs yamlOf cv keys path pft pn saved =
      Except.ok (some
        { path := path,
          checksum := FileHash.from_contents (fs path.absolute_path),
          parse_file_type := some pft,
          project_name := some pn,
          contents := pyStrip (fs path.absolute_path),
          dfy := none }) := by
  rw [load_source_file_fresh_eq fs yamlOf cv keys path pft pn saved h]
  rw [if_neg (fun hc => hc.2 htrim)]
  rfl

theorem load_source_file_none_iff (fs : String → String)
    (yamlOf : String → Option YamlMap)
    (cv : String → YamlMap → Except String Unit) (keys : List String)
    (path : FilePath) (pn : String) (saved : List (String × SourceFile))
    (h : reuseRecord path ParseFileType.Schema saved
      ((initialSourceFile path ParseFileType.Schema pn).file_id) = none) :
    (load_source_file fs yamlOf cv keys path ParseFileType.Schema pn saved =
        Except.ok none ↔
      (pyStrip (fs path.absolute_path) ≠ "" ∧
        yamlFalsy yamlOf (pyStrip (fs path.absolute_path)) = true)) := by
  rw [load_source_file_fresh_eq fs yamlOf cv keys path ParseFileType.Schema pn saved h]
  by_cases htrim : pyStrip (fs path.absolute_path) = ""
  · rw [if_neg (fun hc => hc.2 htrim)]
    simp [htrim]
  · rw [if_pos ⟨rfl, htrim⟩]
    unfold yamlFalsy
    cases hy : yamlOf (pyStrip (fs path.absolute_path)) with
    | none => simp [htrim]
    | some dfy =>
      by_cases he : dfy.isEmpty
      · simp [he, htrim]
      · simp only [he]
        cases hv : validate_yaml cv keys path.original_file_path dfy with
        | ok u => cases u; simp [htrim, he]
        | error e => simp [htrim, he]

theorem load_source_file_path_eq (fs : String → String)
    (yamlOf : String → Option YamlMap)
    (cv : String → YamlMap → Except String Unit) (keys : List String)
    (path : FilePath) (pft : ParseFileType) (pn : String)
    (saved : List (String × SourceFile)) (f : SourceFile)
    (hf : load_source_file fs yamlOf cv keys path pft pn saved = Except.ok (some f)) :
    f.path = path := by
  cases hr : reuseRecord path pft saved ((initialSourceFile path pft pn).file_id) with
  | some old =>
    rw [load_source_file_reuse fs yamlOf cv keys path pft pn saved old hr] at hf
    simp only [Except.ok.injEq, Option.some.injEq] at hf
    subst hf
    rfl
  | none =>
    exact (load_source_file_fresh_fields fs yamlOf cv keys path pft pn saved hr f hf).1

theorem load_source_file_fresh_dfy_iff (fs : String → String)
    (yamlOf : String → Option YamlMap)
    (cv : String → YamlMap → Except String Unit) (keys : List String)
    (path : FilePath) (pn : String) (saved : List (String × SourceFile))
    (h : reuseRecord path ParseFileType.Schema saved
      ((initialSourceFile path ParseFileType.Schema pn).file_id) = none)
    (f : SourceFile)
    (hf : load_source_file fs yamlOf cv keys path ParseFileType.Schema pn saved =
      Except.ok (some f)) :
    (f.dfy.isSome = true ↔ f.contents ≠ "") := by
  rw [load_source_file_fresh_eq fs yamlOf cv keys path ParseFileType.Schema pn saved h] at hf
  by_cases htrim : pyStrip (fs path.absolute_path) = ""
  · rw [if_neg (fun hc => hc.2 htrim)] at hf
    simp only [Except.ok.injEq, Option.some.injEq] at hf
    subst hf
    simp [initialSourceFile, htrim]
  · rw [if_pos ⟨rfl, htrim⟩] at hf
    split at hf
    · rename_i dfy hy
      split at hf
      · exact absurd hf (by simp)
      · split at hf
        · simp only [Except.ok.injEq, Option.some.injEq] at hf
          subst hf
          simp [initialSourceFile, htrim]
        · exact absurd hf (by simp)
    · exact absurd hf (by simp)

theorem validateElements_ok_iff (fp key : String) (els : List YamlValue) :
    validateElements fp key els = Except.ok () ↔ els.any elementViolation = false := by
  induction els with
  | nil => simp [validateElements]
  | cons el rest ih =>
    cases el with
    | dict kvs =>
      cases hfind : kvs.find? (fun kv => kv.1 == "name") with
      | some kv => simp [validateElements, hfind, elementViolation, ih]
      | none => simp [validateElements, hfind, elementViolation]
    | null => simp [validateElements, elementViolation]
    | bool b => simp [validateElements, elementViolation]
    | str s => simp [validateElements, elementViolation]
    | int n => simp [validateElements, elementViolation]
    | list xs => simp [validateElements, elementViolation]

theorem validateElements_error (fp key : String) (els : List YamlValue) (msg : String)
    (h : validateElements fp key els = Except.error msg) :
    msg = notDictMsg fp key ∨ msg = missingNameMsg fp key := by
  induction els with
  | nil => simp [validateElements] at h
  | cons el rest ih =>
    cases el with
    | dict kvs =>
      cases hfind : kvs.find? (fun kv => kv.1 == "name") with
      | some kv =>
        simp only [validateElements, hfind, Option.isSome_some, if_true] at h
        exact ih h
      | none =>
        simp only [validateElements, hfind, Option.isSome_none, Bool.false_eq_true,
          if_false, Except.error.injEq] at h
        exact Or.inr h.symm
    | null =>
      simp only [validateElements, Except.error.injEq] at h
      exact Or.inl h.symm
    | bool b =>
      simp only [validateElements, Except.error.injEq] at h
      exact Or.inl h.symm
    | str s =>
      simp only [validateElements, Except.error.injEq] at h
      exact Or.inl h.symm
    | int n =>
      simp only [validateElements, Except.error.injEq] at h
      exact Or.inl h.symm
    | list xs =>
      simp only [validateElements, Except.error.injEq] at h
      exact Or.inl h.symm

theorem validateKeys_ok_iff (fp : String) (dct : YamlMap) (ks : List String) :
    validateKeys fp dct ks = Except.ok () ↔ ks.any (keyViolation dct) = false := by
  induction ks with
  | nil => simp [validateKeys]
  | cons key rest ih =>
    cases hl : yamlLookup dct key with
    | none => simp [validateKeys, hl, keyViolation, ih]
    | some v =>
      cases v with
      | list els =>
        cases hv : validateElements fp key els with
        | ok u =>
          cases u
          have hno := (validateElements_ok_iff fp key els).mp hv
          simp [validateKeys, hl, hv, keyViolation, ih, hno]
        | error e =>
          have hne : ¬(validateElements fp key els = Except.ok ()) := by
            rw [hv]; simp
          have hany : els.any elementViolation = true := by
            cases hq : els.any elementViolation
            · exact absurd ((validateElements_ok_iff fp key els).mpr hq) hne
            · rfl
          simp [validateKeys, hl, hv, keyViolation, hany]
      | null => simp [validateKeys, hl, keyViolation]
      | bool b => simp [validateKeys, hl, keyViolation]
      | str s => simp [validateKeys, hl, keyViolation]
      | int n => simp [validateKeys, hl, keyViolation]
      | dict kvs => simp [validateKeys, hl, keyViolation]

theorem validateKeys_error (fp : String) (dct : YamlMap) (ks : List String)
    (msg : String) (h : validateKeys fp dct ks = Except.error msg) :
    ∃ key, key ∈ ks ∧ (msg = notListMsg fp key ∨ msg = notDictMsg fp key ∨
      msg = missingNameMsg fp key) := by
  induction ks with
  | nil => simp [validateKeys] at h
  | cons key rest ih =>
    cases hl : yamlLookup dct key with
    | none =>
      simp only [validateKeys, hl] at h
      obtain ⟨k, hk, hm⟩ := ih h
      exact ⟨k, List.mem_cons_of_mem _ hk, hm⟩
    | some v =>
      cases v with
      | list els =>
        cases hv : validateElements fp key els with
        | ok u =>
          cases u
          simp only [validateKeys, hl, hv] at h
          obtain ⟨k, hk, hm⟩ := ih h
          exact ⟨k, List.mem_cons_of_mem _ hk, hm⟩
        | error e =>
          simp only [validateKeys, hl, hv, Except.error.injEq] at h
          rcases validateElements_error fp key els e hv with h1 | h1
          · exact ⟨key, List.mem_cons_self _ _, Or.inr (Or.inl (h ▸ h1))⟩
          · exact ⟨key, List.mem_cons_self _ _, Or.inr (Or.inr (h ▸ h1))⟩
      | null =>
        simp only [validateKeys, hl, Except.error.injEq] at h
        exact ⟨key, List.mem_cons_self _ _, Or.inl h.symm⟩
      | bool b =>
        simp only [validateKeys, hl, Except.error.injEq] at h
        exact ⟨key, List.mem_cons_self _ _, Or.inl h.symm⟩
      | str s =>
        simp only [validateKeys, hl, Except.error.injEq] at h
        exact ⟨key, List.mem_cons_self _ _, Or.inl h.symm⟩
      | int n =>
        simp only [validateKeys, hl, Except.error.injEq] at h
        exact ⟨key, List.mem_cons_self _ _, Or.inl h.symm⟩
      | dict kvs =>
        simp only [validateKeys, hl, Except.error.injEq] at h
        exact ⟨key, List.mem_cons_self _ _, Or.inl h.symm⟩

theorem path_infix_notListMsg (fp key : String) :
    fp.data <:+: (notListMsg fp key).data := by
  refine ⟨("The schema file at ").data,
    (" is invalid because the value of \x27" ++ key ++ "\x27 is not a list").data, ?_⟩
  simp [notListMsg, String.data_append, List.append_assoc]

theorem path_infix_notDictMsg (fp key : String) :
    fp.data <:+: (notDictMsg fp key).data := by
  refine ⟨("The schema file at ").data,
    (" is invalid because a list element for \x27" ++ key ++
      "\x27 is not a dictionary").data, ?_⟩
  simp [notDictMsg, String.data_append, List.append_assoc]

theorem path_infix_missingNameMsg (fp key : String) :
    fp.data <:+: (missingNameMsg fp key).data := by
  refine ⟨("The schema file at ").data,
    (" is invalid because a list element for \x27" ++ key ++
      "\x27 does not have a name attribute.").data, ?_⟩
  simp [missingNameMsg, String.data_append, List.append_assoc]

theorem get_source_files_singular_no_generic (fs : String → String)
    (yamlOf : String → Option YamlMap)
    (cv : String → YamlMap → Except String Unit) (keys : List String)
    (pn : String) (fp_list : List FilePath)
    (saved : List (String × SourceFile)) :
    ∀ l, get_source_files fs yamlOf cv keys pn fp_list
        ParseFileType.SingularTest saved = Except.ok l →
      ∀ f ∈ l, firstPathPart f.path.relative_path ≠ "generic" := by
  induction fp_list with
  | nil =>
    intro l hl f hf
    simp only [get_source_files, Except.ok.injEq] at hl
    subst hl
    simp at hf
  | cons fp rest ih =>
    intro l hl f hf
    unfold get_source_files at hl
    rw [if_neg (by decide : ¬(ParseFileType.SingularTest = ParseFileType.Seed))] at hl
    by_cases hg : (ParseFileType.SingularTest = ParseFileType.SingularTest ∧
        firstPathPart fp.relative_path = "generic")
    · rw [if_pos hg] at hl
      exact ih l hl f hf
    · rw [if_neg hg] at hl
      split at hl
      · exact absurd hl (by simp)
      · exact ih l hl f hf
      · rename_i file hload
        split at hl
        · rename_i tail htail
          have hcons : file :: tail = l := by injection hl
          subst hcons
          cases hf with
          | head =>
            rw [load_source_file_path_eq fs yamlOf cv keys fp
              ParseFileType.SingularTest pn saved f hload]
            intro hgen
            exact hg ⟨rfl, hgen⟩
          | tail _ hmem => exact ih tail htail f hmem
        · exact absurd hl (by simp)

theorem get_source_files_seed_eq (fs : String → String)
    (yamlOf : String → Option YamlMap)
    (cv : String → YamlMap → Except String Unit) (keys : List String)
    (pn : String) (fp_list : List FilePath)
    (saved : List (String × SourceFile)) :
    get_source_files fs yamlOf cv keys pn fp_list ParseFileType.Seed saved =
      Except.ok (fp_list.map (fun fp => load_seed_source_file fs fp pn)) := by
  induction fp_list with
  | nil => rfl
  | cons fp rest ih =>
    unfold get_source_files
    rw [if_pos rfl, ih]
    rfl

theorem get_source_files_mem (fs : String → String)
    (yamlOf : String → Option YamlMap)
    (cv : String → YamlMap → Except String Unit) (keys : List String)
    (pn : String) (fp_list : List FilePath) (pft : ParseFileType)
    (saved : List (String × SourceFile))
    (h1 : pft ≠ ParseFileType.SingularTest) (h2 : pft ≠ ParseFileType.Seed) :
    ∀ l, get_source_files fs yamlOf cv keys pn fp_list pft saved = Except.ok l →
      ∀ fp ∈ fp_list, ∀ f,
        load_source_file fs yamlOf cv keys fp pft pn saved = Except.ok (some f) →
        f ∈ l := by
  induction fp_list with
  | nil =>
    intro l hl fp hfp
    simp at hfp
  | cons fp0 rest ih =>
    intro l hl fp hfp f hload
    unfold get_source_files at hl
    rw [if_neg h2] at hl
    rw [if_neg (fun hc => h1 hc.1)] at hl
    split at hl
    · exact absurd hl (by simp)
    · rename_i hload0
      cases hfp with
      | head =>
        rw [hload] at hload0
        exact absurd hload0 (by simp)
      | tail _ hmem => exact ih l hl fp hmem f hload
    · rename_i file hload0
      split at hl
      · rename_i tail htail
        have hcons : file :: tail = l := by injection hl
        subst hcons
        cases hfp with
        | head =>
          have hfe : Except.ok (some file) = Except.ok (some f) :=
            hload0.symm.trans hload
          have : file = f := by
            injection hfe with hx
            injection hx
          subst this
          exact List.mem_cons_self _ _
        | tail _ hmem => exact List.mem_cons_of_mem _ (ih tail htail fp hmem f hload)
      · exact absurd hl (by simp)

theorem read_files_for_pt_singular_ids (fs : String → String)
    (yamlOf : String → Option YamlMap)
    (cv : String → YamlMap → Except String Unit) (keys : List String)
    (pn : String) (search : String → List FilePath)
    (saved : List (String × SourceFile)) :
    ∀ exts files files2 ids,
      read_files_for_pt fs yamlOf cv keys pn search
        ParseFileType.SingularTest saved files exts = Except.ok (files2, ids) →
      ∀ id ∈ ids, ∃ f : SourceFile, f.file_id = id ∧
        firstPathPart f.path.relative_path ≠ "generic" := by
  intro exts
  induction exts with
  | nil =>
    intro files files2 ids h id hid
    simp only [read_files_for_pt, Except.ok.injEq, Prod.mk.injEq] at h
    rw [← h.2] at hid
    simp at hid
  | cons ext rest ih =>
    intro files files2 ids h id hid
    unfold read_files_for_pt at h
    split at h
    · exact absurd h (by simp)
    · rename_i source_files hsf
      split at h
      · exact absurd h (by simp)
      · rename_i gfiles gids hrec
        have hpair : (gfiles, source_files.map (fun sf => sf.file_id) ++ gids) =
            (files2, ids) := by injection h
        have hids : source_files.map (fun sf => sf.file_id) ++ gids = ids :=
          congrArg Prod.snd hpair
        rw [← hids] at hid
        rcases List.mem_append.mp hid with hleft | hright
        · obtain ⟨f, hfmem, hfid⟩ := List.mem_map.mp hleft
          exact ⟨f, hfid,
            get_source_files_singular_no_generic fs yamlOf cv keys pn
              (search ext) saved source_files hsf f hfmem⟩
        · exact ih _ gfiles gids hrec id hright

theorem reuseRecord_lookup (path : FilePath) (pft : ParseFileType)
    (saved : List (String × SourceFile)) (fid : String) (old : SourceFile)
    (h : reuseRecord path pft saved fid = some old) :
    savedLookup saved fid = some old := by
  unfold reuseRecord at h
  split at h
  · split at h
    · rename_i o heq
      split at h
      · have ho : o = old := by injection h
        subst ho
        exact heq
      · exact absurd h (by simp)
    · exact absurd h (by simp)
  · exact absurd h (by simp)

theorem load_seed_big_eq (fs : String → String) (fp : FilePath) (pn : String)
    (hbig : MAXIMUM_SEED_SIZE < fp.size) :
    load_seed_source_file fs fp pn =
      { path := fp
        checksum := FileHash.empty
        parse_file_type := some ParseFileType.Seed
        project_name := some pn
        contents := ""
        dfy := none } := by
  have hb : fp.seed_too_large = true := by
    simp only [FilePath.seed_too_large, decide_eq_true_eq]
    exact hbig
  unfold load_seed_source_file
  rw [hb]
  rfl

theorem load_seed_small_eq (fs : String → String) (fp : FilePath) (pn : String)
    (hsmall : fp.size ≤ MAXIMUM_SEED_SIZE) :
    load_seed_source_file fs fp pn =
      { path := fp
        checksum := FileHash.from_contents (fs fp.absolute_path)
        parse_file_type := some ParseFileType.Seed
        project_name := some pn
        contents := ""
        dfy := none } := by
  have hb : fp.seed_too_large = false := by
    simp only [FilePath.seed_too_large, decide_eq_false_iff_not]
    exact Nat.not_lt.mpr hsmall
  unfold load_seed_source_file
  rw [hb]
  rfl

/-- C1: for a schema-type file, the checksum and parsed data are copied from
the previous-run record exactly when a prior record with the same file
identity exists in the supplied snapshot and the currently observed
modification time is non-zero and equal to the prior record's; under any
other condition the content is loaded and the checksum recomputed from it.
The reused result does not mention the filesystem, so no content load
occurs. -/
theorem c1_schema_reuse_precondition (fs : String → String)
    (yamlOf : String → Option YamlMap)
    (cv : String → YamlMap → Except String Unit) (keys : List String)
    (path : FilePath) (pn : String) (saved : List (String × SourceFile)) :
    (∀ old, reuseRecord path ParseFileType.Schema saved
        ((initialSourceFile path ParseFileType.Schema pn).file_id) = some old ↔
      (savedLookup saved
          ((initialSourceFile path ParseFileType.Schema pn).file_id) = some old ∧
        path.modification_time ≠ 0 ∧
        old.path.modification_time = path.modification_time)) ∧
    (∀ old, reuseRecord path ParseFileType.Schema saved
        ((initialSourceFile path ParseFileType.Schema pn).file_id) = some old →
      load_source_file fs yamlOf cv keys path ParseFileType.Schema pn saved =
        Except.ok (some { initialSourceFile path ParseFileType.Schema pn with
          checksum := old.checksum, dfy := old.dfy })) ∧
    (reuseRecord path ParseFileType.Schema saved
        ((initialSourceFile path ParseFileType.Schema pn).file_id) = none →
      ∀ f, load_source_file fs yamlOf cv keys path ParseFileType.Schema pn saved =
          Except.ok (some f) →
        f.checksum = FileHash.from_contents (fs path.absolute_path) ∧
        f.contents = pyStrip (fs path.absolute_path)) :=
  ⟨fun old => reuseRecord_some_iff path saved _ old,
   fun old h =>
     load_source_file_reuse fs yamlOf cv keys path ParseFileType.Schema pn saved old h,
   fun h f hf =>
     ⟨(load_source_file_fresh_fields fs yamlOf cv keys path ParseFileType.Schema
         pn saved h f hf).2.2.2.1,
      (load_source_file_fresh_fields fs yamlOf cv keys path ParseFileType.Schema
         pn saved h f hf).2.2.2.2⟩⟩

/-- Witness for C1: a concrete snapshot record with a matching non-zero
modification time is reused. -/
theorem c1_witness :
    reuseRecord cSchemaPath ParseFileType.Schema cSaved
        ((initialSourceFile cSchemaPath ParseFileType.Schema "p").file_id) =
      some cOldRecord ∧
    load_source_file (fun _ => "ignored") (fun _ => none) cCheckOk []
        cSchemaPath ParseFileType.Schema "p" cSaved =
      Except.ok (some cReusedRec) := by
  have h := c1_schema_reuse_precondition (fun _ => "ignored") (fun _ => none)
    cCheckOk [] cSchemaPath "p" cSaved
  have hr := (h.1 cOldRecord).mpr ⟨by rfl, by decide, by rfl⟩
  exact ⟨hr, h.2.1 cOldRecord hr⟩

/-- C2: a file loaded through the content-loader path (no reuse) stores the
digest of the raw unstripped bytes as its checksum and the same bytes with
leading and trailing whitespace trimmed as its contents. -/
theorem c2_hash_raw_store_trimmed (fs : String → String)
    (yamlOf : String → Option YamlMap)
    (cv : String → YamlMap → Except String Unit) (keys : List String)
    (path : FilePath) (pft : ParseFileType) (pn : String)
    (saved : List (String × SourceFile))
    (h : reuseRecord path pft saved
      ((initialSourceFile path pft pn).file_id) = none)
    (f : SourceFile)
    (hf : load_source_file fs yamlOf cv keys path pft pn saved =
      Except.ok (some f)) :
    f.checksum = FileHash.from_contents (fs path.absolute_path) ∧
      f.contents = pyStrip (fs path.absolute_path) :=
  ⟨(load_source_file_fresh_fields fs yamlOf cv keys path pft pn saved h f hf).2.2.2.1,
   (load_source_file_fresh_fields fs yamlOf cv keys path pft pn saved h f hf).2.2.2.2⟩

/-- Witness for C2: a concrete model file with surrounding whitespace. -/
theorem c2_witness :
    ({ path := cModelPath, checksum := FileHash.from_contents " select 1 ",
       parse_file_type := some ParseFileType.Model, project_name := some "p",
       contents := pyStrip " select 1 ", dfy := none } : SourceFile).checksum =
      FileHash.from_contents " select 1 " ∧
    ({ path := cModelPath, checksum := FileHash.from_contents " select 1 ",
       parse_file_type := some ParseFileType.Model, project_name := some "p",
       contents := pyStrip " select 1 ", dfy := none } : SourceFile).contents =
      pyStrip " select 1 " :=
  c2_hash_raw_store_trimmed (fun _ => " select 1 ") (fun _ => none) cCheckOk []
    cModelPath ParseFileType.Model "p" [] (by rfl) _ (by rfl)

/-- C3 counterexample: a schema file whose content is empty after trimming
still yields a record from `load_source_file`, contradicting the claim that
no record is produced. -/
theorem c3_counterexample :
    pyStrip " \n" = "" ∧
    load_source_file (fun _ => " \n") (fun _ => none) cCheckOk []
        cSchemaPath ParseFileType.Schema "p" [] =
      Except.ok (some cEmptySchemaRec) :=
  ⟨rfl, rfl⟩

/-- C3 (amended): a schema file whose content is empty after trimming yields
a record with empty contents and no parsed data; `load_source_file` yields no
record exactly when the trimmed content is non-empty but the YAML parse
gives no truthy mapping. -/
theorem c3_empty_schema_record (fs : String → String)
    (yamlOf : String → Option YamlMap)
    (cv : String → YamlMap → Except String Unit) (keys : List String)
    (path : FilePath) (pn : String) (saved : List (String × SourceFile))
    (h : reuseRecord path ParseFileType.Schema saved
      ((initialSourceFile path ParseFileType.Schema pn).file_id) = none) :
    (pyStrip (fs path.absolute_path) = "" →
      load_source_file fs yamlOf cv keys path ParseFileType.Schema pn saved =
        Except.ok (some
          { path := path,
            checksum := FileHash.from_contents (fs path.absolute_path),
            parse_file_type := some ParseFileType.Schema,
            project_name := some pn,
            contents := pyStrip (fs path.absolute_path),
            dfy := none })) ∧
    (load_source_file fs yamlOf cv keys path ParseFileType.Schema pn saved =
        Except.ok none ↔
      (pyStrip (fs path.absolute_path) ≠ "" ∧
        yamlFalsy yamlOf (pyStrip (fs path.absolute_path)) = true)) :=
  ⟨fun htrim =>
     load_source_file_empty_trim fs yamlOf cv keys path ParseFileType.Schema
       pn saved h htrim,
   load_source_file_none_iff fs yamlOf cv keys path pn saved h⟩

/-- Witness for C3 (amended): a comment-only schema file parses to no
document and yields no record. -/
theorem c3_witness :
    load_source_file (fun _ => "# note") (fun _ => none) cCheckOk []
        cSchemaPath ParseFileType.Schema "p" [] = Except.ok none :=
  (c3_empty_schema_record (fun _ => "# note") (fun _ => none) cCheckOk []
    cSchemaPath "p" [] (by rfl)).2.mpr ⟨by decide, rfl⟩

/-- C4 counterexample: a reused schema record carries parsed data while its
stored contents are empty, contradicting the claimed equivalence for every
returned record. -/
theorem c4_counterexample :
    load_source_file (fun _ => "x") (fun _ => none) cCheckOk []
        cSchemaPath ParseFileType.Schema "p" cSaved =
      Except.ok (some cReusedRec) ∧
    cReusedRec.dfy.isSome = true ∧ cReusedRec.contents = "" :=
  ⟨rfl, rfl, rfl⟩

/-- C4 (amended): for a freshly loaded schema record (reuse precondition
fails), parsed data is present exactly when the stored content is non-empty
after normalization; reused records instead keep empty contents with the
prior record's parsed data. -/
theorem c4_fresh_schema_dfy_iff (fs : String → String)
    (yamlOf : String → Option YamlMap)
    (cv : String → YamlMap → Except String Unit) (keys : List String)
    (path : FilePath) (pn : String) (saved : List (String × SourceFile))
    (h : reuseRecord path ParseFileType.Schema saved
      ((initialSourceFile path ParseFileType.Schema pn).file_id) = none)
    (f : SourceFile)
    (hf : load_source_file fs yamlOf cv keys path ParseFileType.Schema pn saved =
      Except.ok (some f)) :
    (f.dfy.isSome = true ↔ f.contents ≠ "") :=
  load_source_file_fresh_dfy_iff fs yamlOf cv keys path pn saved h f hf

/-- Witness for C4 (amended) at a concrete whitespace-only schema file. -/
theorem c4_witness :
    (cEmptySchemaRec.dfy.isSome = true ↔ cEmptySchemaRec.contents ≠ "") :=
  c4_fresh_schema_dfy_iff (fun _ => " \n") (fun _ => none) cCheckOk []
    cSchemaPath "p" [] (by rfl) cEmptySchemaRec (by rfl)

/-- C5: a seed file over the threshold produces a record carrying only the
location and Seed parse type with the sentinel checksum and no content; a
seed file at or under the threshold gets its checksum computed from the file
contents, with no content retained. -/
theorem c5_seed_size_heuristic (fs : String → String) (fp : FilePath) (pn : String) :
    (MAXIMUM_SEED_SIZE < fp.size →
      load_seed_source_file fs fp pn =
        { path := fp
          checksum := FileHash.empty
          parse_file_type := some ParseFileType.Seed
          project_name := some pn
          contents := ""
          dfy := none }) ∧
    (fp.size ≤ MAXIMUM_SEED_SIZE →
      load_seed_source_file fs fp pn =
        { path := fp
          checksum := FileHash.from_contents (fs fp.absolute_path)
          parse_file_type := some ParseFileType.Seed
          project_name := some pn
          contents := ""
          dfy := none }) :=
  ⟨fun hbig => load_seed_big_eq fs fp pn hbig,
   fun hsmall => load_seed_small_eq fs fp pn hsmall⟩

/-- Witness for C5: a seed exactly at the threshold is hashed, one byte over
is a big seed. -/
theorem c5_witness :
    load_seed_source_file (fun _ => "id") cBigSeedPath "p" =
      { path := cBigSeedPath
        checksum := FileHash.empty
        parse_file_type := some ParseFileType.Seed
        project_name := some "p"
        contents := ""
        dfy := none } ∧
    load_seed_source_file (fun _ => "id") cSmallSeedPath "p" =
      { path := cSmallSeedPath
        checksum := FileHash.from_contents "id"
        parse_file_type := some ParseFileType.Seed
        project_name := some "p"
        contents := ""
        dfy := none } :=
  ⟨(c5_seed_size_heuristic (fun _ => "id") cBigSeedPath "p").1 (by decide),
   (c5_seed_size_heuristic (fun _ => "id") cSmallSeedPath "p").2 (by decide)⟩

/-- C6: under SingularTest every discovered location whose first relative
path component is the reserved generic directory is skipped entirely (no
record produced and no identity cataloged), while the Seed path and the
remaining parse types apply no such skip. -/
theorem c6_singular_generic_skip (fs : String → String)
    (yamlOf : String → Option YamlMap)
    (cv : String → YamlMap → Except String Unit) (keys : List String)
    (pn : String) (fp_list : List FilePath) (pft : ParseFileType)
    (saved : List (String × SourceFile)) :
    (pft = ParseFileType.SingularTest →
      ∀ l, get_source_files fs yamlOf cv keys pn fp_list pft saved = Except.ok l →
        ∀ f ∈ l, firstPathPart f.path.relative_path ≠ "generic") ∧
    (pft ≠ ParseFileType.SingularTest → pft ≠ ParseFileType.Seed →
      ∀ l, get_source_files fs yamlOf cv keys pn fp_list pft saved = Except.ok l →
        ∀ fp ∈ fp_list, ∀ f,
          load_source_file fs yamlOf cv keys fp pft pn saved = Except.ok (some f) →
          f ∈ l) ∧
    (pft = ParseFileType.Seed →
      get_source_files fs yamlOf cv keys pn fp_list pft saved =
        Except.ok (fp_list.map (fun fp => load_seed_source_file fs fp pn))) ∧
    (pft = ParseFileType.SingularTest →
      ∀ search exts files files2 ids,
        read_files_for_pt fs yamlOf cv keys pn search pft saved files exts =
          Except.ok (files2, ids) →
        ∀ id ∈ ids, ∃ f : SourceFile, f.file_id = id ∧
          firstPathPart f.path.relative_path ≠ "generic") := by
  refine ⟨?_, ?_, ?_, ?_⟩
  · intro hpft
    subst hpft
    exact get_source_files_singular_no_generic fs yamlOf cv keys pn fp_list saved
  · intro h1 h2
    exact get_source_files_mem fs yamlOf cv keys pn fp_list pft saved h1 h2
  · intro hpft
    subst hpft
    exact get_source_files_seed_eq fs yamlOf cv keys pn fp_list saved
  · intro hpft
    subst hpft
    intro search exts files files2 ids h
    exact read_files_for_pt_singular_ids fs yamlOf cv keys pn search saved
      exts files files2 ids h

/-- Witness for C6: of two discovered singular-test locations, the one under
the generic directory is dropped and the other is kept. -/
theorem c6_witness :
    get_source_files (fun _ => "select 1") (fun _ => none) cCheckOk [] "p"
        [cGenericTestPath, cSingularTestPath] ParseFileType.SingularTest [] =
      Except.ok [cSingularRec] ∧
    firstPathPart cSingularRec.path.relative_path ≠ "generic" := by
  have hg : get_source_files (fun _ => "select 1") (fun _ => none) cCheckOk [] "p"
      [cGenericTestPath, cSingularTestPath] ParseFileType.SingularTest [] =
      Except.ok [cSingularRec] := rfl
  exact ⟨hg, (c6_singular_generic_skip (fun _ => "select 1") (fun _ => none)
    cCheckOk [] "p" [cGenericTestPath, cSingularTestPath]
    ParseFileType.SingularTest []).1 rfl [cSingularRec] hg cSingularRec
    (List.mem_cons_self _ _)⟩

/-- C7: with the format-version check passing, `validate_yaml` succeeds
exactly when no recognized top-level key present in the mapping violates the
structural rules, and any raised error message is one of the three rule
messages for some recognized key and contains the file path. -/
theorem c7_validate_yaml_errors (cv : String → YamlMap → Except String Unit)
    (keys : List String) (fp : String) (dct : YamlMap)
    (hcv : cv fp dct = Except.ok ()) :
    (validate_yaml cv keys fp dct = Except.ok () ↔
      hasViolation keys dct = false) ∧
    (∀ msg, validate_yaml cv keys fp dct = Except.error msg →
      (∃ key, key ∈ keys ∧ (msg = notListMsg fp key ∨ msg = notDictMsg fp key ∨
        msg = missingNameMsg fp key)) ∧ fp.data <:+: msg.data) := by
  have hv : validate_yaml cv keys fp dct = validateKeys fp dct keys := by
    unfold validate_yaml
    rw [hcv]
  constructor
  · rw [hv]
    exact validateKeys_ok_iff fp dct keys
  · intro msg hmsg
    rw [hv] at hmsg
    obtain ⟨key, hk, hor⟩ := validateKeys_error fp dct keys msg hmsg
    refine ⟨⟨key, hk, hor⟩, ?_⟩
    rcases hor with h1 | h1 | h1
    · rw [h1]
      exact path_infix_notListMsg fp key
    · rw [h1]
      exact path_infix_notDictMsg fp key
    · rw [h1]
      exact path_infix_missingNameMsg fp key

/-- Witness for C7: a well-formed mapping passes validation. -/
theorem c7_witness :
    validate_yaml cCheckOk cKeys "models/schema.yml" cGoodYaml = Except.ok () :=
  (c7_validate_yaml_errors cCheckOk cKeys "models/schema.yml" cGoodYaml rfl).1.mpr
    (by rfl)

/-- C8: for every non-schema parse type, `load_source_file` always reads the
file and computes the checksum from the current content regardless of the
snapshot; differing content bytes give differing checksums. -/
theorem c8_non_schema_checksum (yamlOf : String → Option YamlMap)
    (cv : String → YamlMap → Except String Unit) (keys : List String)
    (path : FilePath) (pft : ParseFileType) (pn : String)
    (saved : List (String × SourceFile)) (h : pft ≠ ParseFileType.Schema) :
    (∀ fs, load_source_file fs yamlOf cv keys path pft pn saved =
      Except.ok (some
        { path := path,
          checksum := FileHash.from_contents (fs path.absolute_path),
          parse_file_type := some pft,
          project_name := some pn,
          contents := pyStrip (fs path.absolute_path),
          dfy := none })) ∧
    (∀ fs1 fs2 : String → String,
      fs1 path.absolute_path ≠ fs2 path.absolute_path →
      FileHash.from_contents (fs1 path.absolute_path) ≠
        FileHash.from_contents (fs2 path.absolute_path)) :=
  ⟨fun fs => load_source_file_non_schema fs yamlOf cv keys path pft pn saved h,
   fun _ _ hne hc => hne (from_contents_inj hc)⟩

/-- Witness for C8: a concrete model file, and two differing contents giving
differing checksums. -/
theorem c8_witness :
    load_source_file (fun _ => "select 1") (fun _ => none) cCheckOk []
        cModelPath ParseFileType.Model "p" [] = Except.ok (some cModelRec) ∧
    FileHash.from_contents "select 1" ≠ FileHash.from_contents "select 2" :=
  ⟨(c8_non_schema_checksum (fun _ => none) cCheckOk [] cModelPath
      ParseFileType.Model "p" [] (by decide)).1 (fun _ => "select 1"),
   (c8_non_schema_checksum (fun _ => none) cCheckOk [] cModelPath
      ParseFileType.Model "p" [] (by decide)).2
     (fun _ => "select 1") (fun _ => "select 2") (by decide)⟩

/-- C9 counterexample: a big-seed record completes loading with the
empty/sentinel checksum, contradicting the claim for the seed path. -/
theorem c9_counterexample :
    (load_seed_source_file (fun _ => "") cBigSeedPath "p").checksum =
      FileHash.empty ∧
    MAXIMUM_SEED_SIZE < cBigSeedPath.size :=
  ⟨rfl, by decide⟩

/-- C9 (amended): provided every record in the previous-run snapshot carries
a non-empty checksum, every record returned by `load_source_file` and every
seed record at or under the size threshold carries a non-empty checksum;
big-seed records are the exception and keep the sentinel. -/
theorem c9_checksum_nonempty (fs : String → String)
    (yamlOf : String → Option YamlMap)
    (cv : String → YamlMap → Except String Unit) (keys : List String)
    (path : FilePath) (pft : ParseFileType) (pn : String)
    (saved : List (String × SourceFile)) (fp : FilePath)
    (hsaved : ∀ kv ∈ saved, (kv : String × SourceFile).2.checksum ≠ FileHash.empty) :
    (∀ f, load_source_file fs yamlOf cv keys path pft pn saved =
        Except.ok (some f) →
      f.checksum ≠ FileHash.empty) ∧
    (fp.size ≤ MAXIMUM_SEED_SIZE →
      (load_seed_source_file fs fp pn).checksum ≠ FileHash.empty) := by
  constructor
  · intro f hf
    cases hr : reuseRecord path pft saved ((initialSourceFile path pft pn).file_id) with
    | some old =>
      rw [load_source_file_reuse fs yamlOf cv keys path pft pn saved old hr] at hf
      simp only [Except.ok.injEq, Option.some.injEq] at hf
      subst hf
      obtain ⟨k, hmem⟩ := savedLookup_mem (reuseRecord_lookup path pft saved _ old hr)
      exact hsaved (k, old) hmem
    | none =>
      have hc := (load_source_file_fresh_fields fs yamlOf cv keys path pft pn
        saved hr f hf).2.2.2.1
      rw [hc]
      exact from_contents_ne_empty _
  · intro hsmall
    rw [load_seed_small_eq fs fp pn hsmall]
    exact from_contents_ne_empty _

/-- Witness for C9 (amended): the concrete reused record and a small seed
both carry non-empty checksums. -/
theorem c9_witness :
    cReusedRec.checksum ≠ FileHash.empty ∧
    (load_seed_source_file (fun _ => "id") cSmallSeedPath "p").checksum ≠
      FileHash.empty := by
  have hsaved : ∀ kv ∈ cSaved, (kv : String × SourceFile).2.checksum ≠ FileHash.empty := by
    intro kv hkv
    rw [List.mem_singleton.mp hkv]
    decide
  have h := c9_checksum_nonempty (fun _ => "id") (fun _ => none) cCheckOk []
    cSchemaPath ParseFileType.Schema "p" cSaved cSmallSeedPath hsaved
  exact ⟨h.1 cReusedRec (by rfl), h.2 (by decide)⟩

/-- C10: on the schema reuse path exactly the checksum and the parsed data
are copied forward from the prior record; the stored contents stay empty and
the result does not depend on the filesystem, the YAML parser, or the
validation inputs, so no read, parse or revalidation happens. -/
theorem c10_reuse_frame (path : FilePath) (pn : String)
    (saved : List (String × SourceFile)) (old : SourceFile)
    (h : reuseRecord path ParseFileType.Schema saved
      ((initialSourceFile path ParseFileType.Schema pn).file_id) = some old) :
    ∀ (fs : String → String) (yamlOf : String → Option YamlMap)
      (cv : String → YamlMap → Except String Unit) (keys : List String),
      load_source_file fs yamlOf cv keys path ParseFileType.Schema pn saved =
        Except.ok (some
          { path := path,
            checksum := old.checksum,
            parse_file_type := some ParseFileType.Schema,
            project_name := some pn,
            contents := "",
            dfy := old.dfy }) :=
  fun fs yamlOf cv keys =>
    load_source_file_reuse fs yamlOf cv keys path ParseFileType.Schema pn saved old h

/-- Witness for C10: the reused record is produced even under a filesystem
with different bytes and a parser that would yield invalid data. -/
theorem c10_witness :
    load_source_file (fun _ => "DIFFERENT") (fun _ => some cBadYaml) cCheckOk
        cKeys cSchemaPath ParseFileType.Schema "p" cSaved =
      Except.ok (some cReusedRec) :=
  c10_reuse_frame cSchemaPath "p" cSaved cOldRecord (by rfl)
    (fun _ => "DIFFERENT") (fun _ => some cBadYaml) cCheckOk cKeys

end ReadFiles
